import Mathlib

/-!
Verification of the GOST-PROJECT storefront core against its specification.

The development shallowly embeds the three source modules:
* `js/cart.js` — the `ProductCart` class (add / remove / update quantity /
  clear / total / count / localStorage persistence);
* `js/validation.js` — the `FormValidator` class (rule-driven field checks);
* `main.js` — the `ProductManager` class (catalog, category filter, search).

JavaScript numbers are modelled as `Int` (every numeric value in the
repository — ids, prices, quantities — is an integer), strings as Lean
`String` (a list of unicode code points; the repository never manipulates
surrogate pairs, so `String.length` agrees with the JavaScript `length` on
all data appearing here), and the DOM / localStorage collaborators are made
explicit arguments and results.
-/

/-! ## JavaScript string primitives used by the source -/

/-- The character class `\s` of JavaScript regular expressions, which is also
the set of characters removed by `String.prototype.trim`. -/
def jsIsSpace (c : Char) : Bool :=
  c == ' ' || c == '\t' || c == '\n' || c == '\r'
  || c == Char.ofNat 11 || c == Char.ofNat 12 || c == Char.ofNat 160
  || c == Char.ofNat 0x1680
  || (decide (Char.ofNat 0x2000 ≤ c ∧ c ≤ Char.ofNat 0x200A))
  || c == Char.ofNat 0x2028 || c == Char.ofNat 0x2029 || c == Char.ofNat 0x202F
  || c == Char.ofNat 0x205F || c == Char.ofNat 0x3000 || c == Char.ofNat 0xFEFF

/-- Removes the trailing characters satisfying `p` from a list. -/
def dropTrailing (p : Char → Bool) : List Char → List Char
  | [] => []
  | c :: cs =>
    match dropTrailing p cs with
    | [] => if p c then [] else [c]
    | d :: ds => c :: d :: ds

/-- Characters of `String.prototype.trim`: the leading and trailing
whitespace is removed. -/
def jsTrimList (cs : List Char) : List Char :=
  dropTrailing jsIsSpace (cs.dropWhile jsIsSpace)

/-- JavaScript `value.trim()`. -/
def jsTrim (s : String) : String :=
  ⟨jsTrimList s.data⟩

def isAsciiLower (c : Char) : Bool := decide ('a' ≤ c ∧ c ≤ 'z')

def isAsciiUpper (c : Char) : Bool := decide ('A' ≤ c ∧ c ≤ 'Z')

def isAsciiDigit (c : Char) : Bool := decide ('0' ≤ c ∧ c ≤ '9')

def isCyrLower (c : Char) : Bool := decide ('а' ≤ c ∧ c ≤ 'я')

def isCyrUpper (c : Char) : Bool := decide ('А' ≤ c ∧ c ≤ 'Я')

/-- JavaScript `String.prototype.toLowerCase`, restricted to the two
alphabets (basic Latin and Russian Cyrillic) occurring in the repository;
all other characters are left unchanged, as toLowerCase does for them. -/
def jsToLower (c : Char) : Char :=
  if isAsciiUpper c then Char.ofNat (c.toNat + 32)
  else if isCyrUpper c then Char.ofNat (c.toNat + 32)
  else if c == 'Ё' then 'ё'
  else c

def jsLowerStr (s : String) : String :=
  ⟨s.data.map jsToLower⟩

/-- Whether the first list is a prefix of the second, as booleans. -/
def isPrefixList : List Char → List Char → Bool
  | [], _ => true
  | _ :: _, [] => false
  | c :: cs, d :: ds => c == d && isPrefixList cs ds

/-- JavaScript `haystack.includes(needle)` on lists of characters. -/
def listIncludes (hay needle : List Char) : Bool :=
  match hay with
  | [] => needle.isEmpty
  | _ :: rest => isPrefixList needle hay || listIncludes rest needle

/-- JavaScript `haystack.includes(needle)`. -/
def strIncludes (hay needle : String) : Bool :=
  listIncludes hay.data needle.data

/-! ## Data model: products and cart entries (`main.js`, `cart.js`) -/

/-- A catalog product record, as produced by `ProductManager.loadProducts`. -/
structure Product where
  id : Int
  name : String
  description : String
  price : Int
  category : String
  image : String
deriving DecidableEq, Repr

/-- A cart entry: the spread `{ ...product, quantity }` pushed by
`ProductCart.addProduct`. -/
structure CartItem where
  id : Int
  name : String
  description : String
  price : Int
  category : String
  image : String
  quantity : Int
deriving DecidableEq, Repr

/-- The entry `{ ...product, quantity: q }`. -/
def CartItem.ofProduct (p : Product) (q : Int) : CartItem :=
  ⟨p.id, p.name, p.description, p.price, p.category, p.image, q⟩

/-- The assignment `item.quantity = q`. -/
def CartItem.withQty (it : CartItem) (q : Int) : CartItem :=
  ⟨it.id, it.name, it.description, it.price, it.category, it.image, q⟩

/-- `ProductCart.validateProduct`: `product && product.id && product.name &&
product.price > 0`.  Truthiness of the number `id` is `id ≠ 0` and of the
string `name` is `name ≠ ""`; the `product` operand itself is an object
whenever the method is reached in the repository. -/
def validateProduct (p : Product) : Bool :=
  p.id != 0 && p.name != "" && p.price > 0

/-- `this.items.find(item => item.id === productId)`. -/
def findItem (items : List CartItem) (pid : Int) : Option CartItem :=
  items.find? fun it => it.id == pid

/-- The effect of `existingItem.quantity += 1`: `find` returns the first
entry with the given id, and only that object is mutated. -/
def incQtyFirst (pid : Int) : List CartItem → List CartItem
  | [] => []
  | it :: rest =>
    if it.id == pid then it.withQty (it.quantity + 1) :: rest
    else it :: incQtyFirst pid rest

/-- The effect of `item.quantity = quantity` on the first entry found. -/
def setQtyFirst (pid : Int) (q : Int) : List CartItem → List CartItem
  | [] => []
  | it :: rest =>
    if it.id == pid then it.withQty q :: rest
    else it :: setQtyFirst pid q rest

/-- `ProductCart.addProduct`, as a pure function from the `items` state to
the returned boolean and the new state (the `saveToStorage` and
`updateCartUI` side effects do not touch `items`). -/
def addProduct (items : List CartItem) (p : Product) : Bool × List CartItem :=
  if validateProduct p then
    match findItem items p.id with
    | some _ => (true, incQtyFirst p.id items)
    | none => (true, items ++ [CartItem.ofProduct p 1])
  else (false, items)

/-- `ProductCart.removeProduct`: filters out the matching entries and
reports whether the length changed. -/
def removeProduct (items : List CartItem) (pid : Int) : Bool × List CartItem :=
  let remaining := items.filter fun it => !(it.id == pid)
  (remaining.length != items.length, remaining)

/-- `ProductCart.updateQuantity`. -/
def updateQuantity (items : List CartItem) (pid : Int) (q : Int) :
    Bool × List CartItem :=
  if q ≤ 0 then removeProduct items pid
  else
    match findItem items pid with
    | some _ => (true, setQtyFirst pid q items)
    | none => (false, items)

/-- `ProductCart.clear`. -/
def clearCart : List CartItem := []

/-- `ProductCart.calculateTotal`: a `reduce` over the current entries. -/
def calculateTotal (items : List CartItem) : Int :=
  items.foldl (fun total it => total + it.price * it.quantity) 0

/-- `ProductCart.getItemCount`: a `reduce` over the current entries. -/
def getItemCount (items : List CartItem) : Int :=
  items.foldl (fun count it => count + it.quantity) 0

/-- Follows the specification's words: the total recomputed from scratch,
Σ (price × quantity) over the current entries. -/
def sumPriceQty (items : List CartItem) : Int :=
  (items.map fun it => it.price * it.quantity).sum

/-- Follows the specification's words: the item count recomputed from
scratch, Σ quantity over the current entries. -/
def sumQty (items : List CartItem) : Int :=
  (items.map fun it => it.quantity).sum

/-- The list of product ids present in the cart. -/
def cartIds (items : List CartItem) : List Int :=
  items.map fun it => it.id

/-- The cart states reachable from the empty cart by `addProduct`,
`removeProduct` and `updateQuantity` calls. -/
inductive Reachable : List CartItem → Prop
  | empty : Reachable []
  | add (s : List CartItem) (p : Product) :
      Reachable s → Reachable (addProduct s p).2
  | remove (s : List CartItem) (pid : Int) :
      Reachable s → Reachable (removeProduct s pid).2
  | setQ (s : List CartItem) (pid q : Int) :
      Reachable s → Reachable (updateQuantity s pid q).2

/-! ## The product catalog of `ProductManager.loadProducts` -/

def productIphone : Product :=
  ⟨1, "iPhone 14 Pro", "Новейший смартфон от Apple с улучшенной камерой",
   99990, "smartphones", "images/iphnoe14.png"⟩

def productGalaxyS23 : Product :=
  ⟨2, "Samsung Galaxy S23", "Флагманский смартфон от Samsung с мощным процессором",
   79990, "smartphones", "images/samsunhgs23.png"⟩

def productMacbook : Product :=
  ⟨3, "MacBook Air M2", "Легкий и мощный ноутбук от Apple",
   129990, "laptops", "images/macbookarim2.png"⟩

def productDellXps : Product :=
  ⟨4, "Dell XPS 13", "Компактный ноутбук с безрамочным дисплеем",
   89990, "laptops", "images/dellXPS13.png"⟩

def productIpad : Product :=
  ⟨5, "iPad Pro", "Мощный планшет для работы и творчества",
   74990, "tablets", "images/Ipadpro.png"⟩

def productGalaxyTab : Product :=
  ⟨6, "Samsung Galaxy Tab S8", "Планшет с S-Pen для заметок и рисования",
   54990, "tablets", "images/samsunggalaxy.png"⟩

def productAirpods : Product :=
  ⟨7, "AirPods Pro", "Беспроводные наушники с шумоподавлением",
   24990, "accessories", "images/airposd.png"⟩

def productWatch : Product :=
  ⟨8, "Apple Watch Series 8", "Умные часы с функциями для здоровья",
   39990, "accessories", "images/apllewatch.png"⟩

/-- The eight products loaded by `ProductManager.loadProducts`. -/
def catalogProducts : List Product :=
  [productIphone, productGalaxyS23, productMacbook, productDellXps,
   productIpad, productGalaxyTab, productAirpods, productWatch]

/-- A concrete cart state obtained by two adds and a quantity update. -/
def demoCartState : List CartItem :=
  (updateQuantity (addProduct (addProduct [] productIphone).2 productGalaxyS23).2 1 5).2

/-! ## Filter and search (`ProductManager`) -/

/-- `ProductManager.filterByCategory`. -/
def filterByCategory (products : List Product) (category : String) : List Product :=
  if category == "all" then products
  else products.filter fun p => p.category == category

/-- `ProductManager.searchProducts`: note that only the emptiness test uses
`query.trim()`; the matching itself lowercases the query as given. -/
def searchProducts (products : List Product) (query : String) : List Product :=
  if jsTrim query == "" then products
  else
    let lowerCaseQuery := jsLowerStr query
    products.filter fun p =>
      strIncludes (jsLowerStr p.name) lowerCaseQuery
      || strIncludes (jsLowerStr p.description) lowerCaseQuery

/-- Follows the claim's words for C8: the subsequence of the catalog whose
name or description case-insensitively contains the trimmed query. -/
def claimSearch (products : List Product) (query : String) : List Product :=
  if jsTrim query == "" then products
  else
    products.filter fun p =>
      strIncludes (jsLowerStr p.name) (jsLowerStr (jsTrim query))
      || strIncludes (jsLowerStr p.description) (jsLowerStr (jsTrim query))

/-! ## Persistence (`saveToStorage` / `loadFromStorage`)

The storage collaborator holds one key whose value is the text
`JSON.stringify(this.items)`.  JSON text is modelled at the level of the
JSON trees it denotes: `JSON.parse ∘ JSON.stringify` is the identity on the
trees produced for this data (integers and strings only), so `saveToStorage`
is modelled as producing the tree and a successful `JSON.parse` as returning
a tree. -/

/-- JSON values, as produced by `JSON.parse`. -/
inductive Json where
  | null
  | bool (b : Bool)
  | num (n : Int)
  | str (s : String)
  | arr (elems : List Json)
  | obj (fields : List (String × Json))

/-- The serialized form of one cart entry: `JSON.stringify` emits the own
enumerable properties in insertion order. -/
def itemToJson (it : CartItem) : Json :=
  Json.obj [("id", Json.num it.id), ("name", Json.str it.name),
            ("description", Json.str it.description), ("price", Json.num it.price),
            ("category", Json.str it.category), ("image", Json.str it.image),
            ("quantity", Json.num it.quantity)]

/-- `ProductCart.saveToStorage`: the value written under `techstore_cart`. -/
def itemsToJson (items : List CartItem) : Json :=
  Json.arr (items.map itemToJson)

/-- Reads a parsed JSON value back as a cart entry, the shape inverse of
`itemToJson`. -/
def jsonToItem (j : Json) : Option CartItem :=
  match j with
  | Json.obj [(k1, Json.num i), (k2, Json.str n), (k3, Json.str d),
              (k4, Json.num pr), (k5, Json.str c), (k6, Json.str im),
              (k7, Json.num q)] =>
    if k1 == "id" && k2 == "name" && k3 == "description" && k4 == "price"
       && k5 == "category" && k6 == "image" && k7 == "quantity"
    then some ⟨i, n, d, pr, c, im, q⟩ else none
  | _ => none

def jsonItemsToList : List Json → Option (List CartItem)
  | [] => some []
  | j :: js =>
    match jsonToItem j, jsonItemsToList js with
    | some it, some rest => some (it :: rest)
    | _, _ => none

/-- Reads a parsed JSON value back as a cart entry list. -/
def jsonToItems (j : Json) : Option (List CartItem) :=
  match j with
  | Json.arr js => jsonItemsToList js
  | _ => none

/-- What `localStorage.getItem('techstore_cart')` followed by `JSON.parse`
can observably do inside the `try` block of `loadFromStorage`. -/
inductive Stored where
  | absent
  | unreadable
  | malformedText
  | parsedAs (j : Json)

/-- Result of running the `ProductCart` constructor: the value left in
`this.items` (a raw parsed JSON value — the source performs no shape
validation) and whether an error was reported to `console.error`. -/
structure LoadOutcome where
  items : Json
  loggedError : Bool

/-- The `try` block of `loadFromStorage`: read the key (absent leaves
`this.items` at its prior value `initial`), parse, assign; exceptions from
the read or the parse propagate to the handler. -/
def loadTryBlock (initial : Json) : Stored → Except Unit Json
  | Stored.absent => Except.ok initial
  | Stored.unreadable => Except.error ()
  | Stored.malformedText => Except.error ()
  | Stored.parsedAs j => Except.ok j

/-- `ProductCart.loadFromStorage`: the `catch` handler logs the error and
resets `this.items` to `[]`. -/
def loadFromStorage (initial : Json) (s : Stored) : LoadOutcome :=
  match loadTryBlock initial s with
  | Except.ok j => ⟨j, false⟩
  | Except.error _ => ⟨Json.arr [], true⟩

/-- The `ProductCart` constructor: `this.items = []; this.loadFromStorage()`. -/
def constructCart (s : Stored) : LoadOutcome :=
  loadFromStorage (Json.arr []) s

/-! ## Form validation (`validation.js`) -/

/-- The four built-in pattern names of `FormValidator.patterns`. -/
inductive Pat where
  | email
  | phone
  | name
  | password
deriving DecidableEq, Repr

/-- Splits a character list at its first `@`, when one exists. -/
def breakAtSign : List Char → Option (List Char × List Char)
  | [] => none
  | c :: cs =>
    if c == '@' then some ([], cs)
    else
      match breakAtSign cs with
      | some (l, r) => some (c :: l, r)
      | none => none

/-- The regex `/^[^\s@]+@[^\s@]+\.[^\s@]+$/`: one `@` splitting the string
into a nonempty space-free local part and a space-free `@`-free domain that
contains a dot with nonempty text on both sides. -/
def emailTest (s : String) : Bool :=
  match breakAtSign s.data with
  | none => false
  | some (l, r) =>
    !l.isEmpty && l.all (fun c => !jsIsSpace c)
    && !r.contains '@' && r.all (fun c => !jsIsSpace c)
    && (r.drop 1).dropLast.contains '.'

/-- Consumes the character `c` if it is next (`c?` in the regex; each
optional atom here is followed by a different character class, so the
greedy choice is exact). -/
def eatOpt (c : Char) (cs : List Char) : List Char :=
  match cs with
  | [] => []
  | d :: ds => if d == c then ds else d :: ds

/-- Consumes one whitespace character if present (`\s?`). -/
def eatOptSpace (cs : List Char) : List Char :=
  match cs with
  | [] => []
  | d :: ds => if jsIsSpace d then ds else d :: ds

/-- Consumes exactly `n` ASCII digits (`\d{n}`). -/
def eatDigits : Nat → List Char → Option (List Char)
  | 0, cs => some cs
  | _ + 1, [] => none
  | n + 1, c :: cs => if isAsciiDigit c then eatDigits n cs else none

/-- The regex `/^\+7\s?\(?\d{3}\)?\s?\d{3}-?\d{2}-?\d{2}$/`. -/
def phoneTest (s : String) : Bool :=
  match s.data with
  | '+' :: '7' :: rest =>
    match eatDigits 3 (eatOpt '(' (eatOptSpace rest)) with
    | none => false
    | some r3 =>
      match eatDigits 3 (eatOptSpace (eatOpt ')' r3)) with
      | none => false
      | some r6 =>
        match eatDigits 2 (eatOpt '-' r6) with
        | none => false
        | some r8 =>
          match eatDigits 2 (eatOpt '-' r8) with
          | none => false
          | some r10 => r10.isEmpty
  | _ => false

/-- The apostrophe character of the name pattern. -/
def apostropheChar : Char := Char.ofNat 39

/-- One character of the class `[a-zA-Zа-яА-ЯёЁ\s\-']`. -/
def nameChar (c : Char) : Bool :=
  isAsciiLower c || isAsciiUpper c || isCyrLower c || isCyrUpper c
  || c == 'ё' || c == 'Ё' || jsIsSpace c || c == '-' || c == apostropheChar

/-- The regex `/^[a-zA-Zа-яА-ЯёЁ\s\-']+$/`. -/
def nameTest (s : String) : Bool :=
  !s.data.isEmpty && s.data.all nameChar

/-- One character of the class `[a-zA-Z\d]`. -/
def latinAlnum (c : Char) : Bool :=
  isAsciiLower c || isAsciiUpper c || isAsciiDigit c

/-- The regex `/^(?=.*[a-z])(?=.*[A-Z])(?=.*\d)[a-zA-Z\d]{8,}$/`: at least 8
characters, every one a basic-Latin letter or digit, with at least one
lowercase letter, one uppercase letter and one digit. -/
def passwordTest (s : String) : Bool :=
  decide (8 ≤ s.data.length) && s.data.all latinAlnum
  && s.data.any isAsciiLower && s.data.any isAsciiUpper && s.data.any isAsciiDigit

/-- The lookup `this.patterns[rules.pattern].test(value)`. -/
def patternTest : Pat → String → Bool
  | Pat.email => emailTest
  | Pat.phone => phoneTest
  | Pat.name => nameTest
  | Pat.password => passwordTest

/-- `this.messages.required`. -/
def msgRequired : String := "Это поле обязательно для заполнения"

/-- `this.messages.email`. -/
def msgEmail : String := "Введите корректный email адрес"

/-- `this.messages.phone`. -/
def msgPhone : String := "Введите телефон в формате +7 (XXX) XXX-XX-XX"

/-- `this.messages.name`. -/
def msgName : String := "Имя может содержать только буквы и дефисы"

/-- `this.messages.password`. -/
def msgPassword : String :=
  "Пароль должен содержать минимум 8 символов, включая заглавные и строчные буквы и цифры"

/-- `this.messages.minLength(min)`. -/
def msgMinLength (min : Nat) : String :=
  "Минимальная длина: " ++ toString min ++ " символов"

/-- `this.messages.maxLength(max)`. -/
def msgMaxLength (max : Nat) : String :=
  "Максимальная длина: " ++ toString max ++ " символов"

/-- The default custom-validation message. -/
def msgInvalidValue : String := "Неверное значение"

/-- The lookup `this.messages[rules.pattern]`. -/
def patternMessage : Pat → String
  | Pat.email => msgEmail
  | Pat.phone => msgPhone
  | Pat.name => msgName
  | Pat.password => msgPassword

/-- A per-field rule object.  Absent properties are `none`; the JavaScript
truthiness tests on the numeric properties make a present `0` behave like an
absent one, which the checks below reproduce. -/
structure Rules where
  required : Bool
  minLength : Option Nat
  maxLength : Option Nat
  pat : Option Pat
  custom : Option (String → Bool)
  customMessage : Option String

/-- `rules.minLength && value.length < rules.minLength`. -/
def minLengthCheck (v : String) : Option Nat → Option String
  | some m => if 0 < m ∧ v.length < m then some (msgMinLength m) else none
  | none => none

/-- `rules.maxLength && value.length > rules.maxLength`. -/
def maxLengthCheck (v : String) : Option Nat → Option String
  | some m => if 0 < m ∧ m < v.length then some (msgMaxLength m) else none
  | none => none

/-- `rules.pattern && !this.patterns[rules.pattern].test(value)`. -/
def patternCheck (v : String) : Option Pat → Option String
  | some p => if patternTest p v then none else some (patternMessage p)
  | none => none

/-- `rules.customMessage || 'Неверное значение'`. -/
def customMessageOr : Option String → String
  | some m => if m == "" then msgInvalidValue else m
  | none => msgInvalidValue

/-- `rules.custom && !rules.custom(value)`. -/
def customCheck (v : String) : Option (String → Bool) → Option String → Option String
  | some f, cm => if f v then none else some (customMessageOr cm)
  | none, _ => none

/-- `FormValidator.validateField`: the trimmed value runs through the checks
in source order; an empty trimmed value returns early. -/
def validateField (value : String) (rules : Rules) : Option String :=
  let v := jsTrim value
  if rules.required && v == "" then some msgRequired
  else if v == "" then none
  else
    (minLengthCheck v rules.minLength).orElse fun _ =>
      (maxLengthCheck v rules.maxLength).orElse fun _ =>
        (patternCheck v rules.pat).orElse fun _ =>
          customCheck v rules.custom rules.customMessage

/-- Follows the claim's words for C6: the checks required-and-empty, minimum
length, maximum length, pattern, custom evaluated in order on every value,
returning the error of the first failing check. -/
def claimFieldPipeline (value : String) (rules : Rules) : Option String :=
  let v := jsTrim value
  if rules.required && v == "" then some msgRequired
  else
    (minLengthCheck v rules.minLength).orElse fun _ =>
      (maxLengthCheck v rules.maxLength).orElse fun _ =>
        (patternCheck v rules.pat).orElse fun _ =>
          customCheck v rules.custom rules.customMessage

/-- Follows the claim's words for C7: at least 8 characters with at least
one lowercase letter, one uppercase letter and one digit. -/
def claimPasswordOk (s : String) : Bool :=
  decide (8 ≤ s.data.length) && s.data.any isAsciiLower
  && s.data.any isAsciiUpper && s.data.any isAsciiDigit

/-- The rule `{required: true, pattern: 'email'}` of the registration form. -/
def emailRequiredRules : Rules :=
  ⟨true, none, none, some Pat.email, none, none⟩

/-- The rule `{minLength: 2}` alone (not required). -/
def minTwoRules : Rules :=
  ⟨false, some 2, none, none, none, none⟩

/-- `form.querySelector` on a form modelled as named field values. -/
def formLookup (form : List (String × String)) (n : String) : Option String :=
  (form.find? fun e => e.1 == n).map fun e => e.2

/-- The loop of `FormValidator.validateForm`: `isValid` starts `true`, each
declared field present on the form is validated, an error flips `isValid`
and is recorded. -/
def validateFormAux (form : List (String × String))
    (acc : Bool × List (String × String)) :
    List (String × Rules) → Bool × List (String × String)
  | [] => acc
  | (fieldName, r) :: rest =>
    match formLookup form fieldName with
    | some v =>
      match validateField v r with
      | some e => validateFormAux form (false, acc.2 ++ [(fieldName, e)]) rest
      | none => validateFormAux form acc rest
    | none => validateFormAux form acc rest

/-- `FormValidator.validateForm`: the returned `isValid` with the collected
`errors`. -/
def validateForm (form : List (String × String)) (rules : List (String × Rules)) :
    Bool × List (String × String) :=
  validateFormAux form (true, []) rules

/-- Whether one declared field passes validation (vacuously when it is
absent from the form, mirroring the `if (field)` guard). -/
def fieldOk (form : List (String × String)) (fr : String × Rules) : Bool :=
  match formLookup form fr.1 with
  | some v => validateField v fr.2 == none
  | none => true

/-! ## Lemmas about the cart operations -/

theorem foldl_total_eq (l : List CartItem) : ∀ a : Int,
    List.foldl (fun total it => total + it.price * it.quantity) a l = a + sumPriceQty l := by
  induction l with
  | nil => intro a; simp [sumPriceQty]
  | cons x xs ih =>
    intro a
    simp only [List.foldl_cons, sumPriceQty, List.map_cons, List.sum_cons] at ih ⊢
    rw [ih]
    ring

theorem foldl_count_eq (l : List CartItem) : ∀ a : Int,
    List.foldl (fun count it => count + it.quantity) a l = a + sumQty l := by
  induction l with
  | nil => intro a; simp [sumQty]
  | cons x xs ih =>
    intro a
    simp only [List.foldl_cons, sumQty, List.map_cons, List.sum_cons] at ih ⊢
    rw [ih]
    ring

theorem calculateTotal_eq_sum (items : List CartItem) :
    calculateTotal items = sumPriceQty items := by
  have h := foldl_total_eq items 0
  simpa [calculateTotal] using h

theorem getItemCount_eq_sum (items : List CartItem) :
    getItemCount items = sumQty items := by
  have h := foldl_count_eq items 0
  simpa [getItemCount] using h

theorem incQtyFirst_ids (pid : Int) :
    ∀ l : List CartItem, cartIds (incQtyFirst pid l) = cartIds l := by
  intro l
  induction l with
  | nil => rfl
  | cons it rest ih =>
    simp only [incQtyFirst]
    by_cases h : (it.id == pid) = true
    · simp [h, cartIds, CartItem.withQty]
    · rw [if_neg h]
      simp only [cartIds, List.map_cons] at ih ⊢
      rw [ih]

theorem setQtyFirst_ids (pid q : Int) :
    ∀ l : List CartItem, cartIds (setQtyFirst pid q l) = cartIds l := by
  intro l
  induction l with
  | nil => rfl
  | cons it rest ih =>
    simp only [setQtyFirst]
    by_cases h : (it.id == pid) = true
    · simp [h, cartIds, CartItem.withQty]
    · rw [if_neg h]
      simp only [cartIds, List.map_cons] at ih ⊢
      rw [ih]

theorem nodupIds_addProduct (s : List CartItem) (p : Product)
    (h : (cartIds s).Nodup) : (cartIds (addProduct s p).2).Nodup := by
  by_cases hv : validateProduct p = true
  · cases hf : findItem s p.id with
    | some it =>
      simp only [addProduct, hv, if_true, hf]
      rw [incQtyFirst_ids]
      exact h
    | none =>
      simp only [addProduct, hv, if_true, hf]
      have habs : ∀ it ∈ s, ¬(it.id == p.id) = true := by
        rw [← List.find?_eq_none]
        exact hf
      simp only [cartIds, List.map_append, List.map_cons, List.map_nil]
      rw [List.nodup_append]
      refine ⟨h, List.nodup_singleton _, ?_⟩
      intro x hx hy
      simp only [CartItem.ofProduct, List.mem_singleton] at hy
      subst hy
      simp only [cartIds, List.mem_map] at hx
      obtain ⟨it, hit, hid⟩ := hx
      exact habs it hit (by simp [hid])
  · simp only [addProduct, hv, if_false]
    exact h

theorem nodupIds_removeProduct (s : List CartItem) (pid : Int)
    (h : (cartIds s).Nodup) : (cartIds (removeProduct s pid).2).Nodup := by
  simp only [removeProduct]
  exact h.sublist (List.Sublist.map _ (List.filter_sublist s))

theorem nodupIds_updateQuantity (s : List CartItem) (pid q : Int)
    (h : (cartIds s).Nodup) : (cartIds (updateQuantity s pid q).2).Nodup := by
  by_cases hq : q ≤ 0
  · simp only [updateQuantity, hq, if_true]
    exact nodupIds_removeProduct s pid h
  · cases hf : findItem s pid with
    | some it =>
      simp only [updateQuantity, hq, if_false, hf]
      rw [setQtyFirst_ids]
      exact h
    | none =>
      simp only [updateQuantity, hq, if_false, hf]
      exact h

/-- C1: for every sequence of add, remove and setQuantity calls starting
from the empty cart, the cart never contains two entries with the same
product id, `calculateTotal` returns Σ (price × quantity) recomputed from
scratch over the current entries, and `getItemCount` returns Σ quantity. -/
theorem cart_reachable_invariants (s : List CartItem) (h : Reachable s) :
    (cartIds s).Nodup ∧ calculateTotal s = sumPriceQty s ∧ getItemCount s = sumQty s := by
  refine ⟨?_, calculateTotal_eq_sum s, getItemCount_eq_sum s⟩
  induction h with
  | empty => simp [cartIds]
  | add t p _ ih => exact nodupIds_addProduct t p ih
  | remove t pid _ ih => exact nodupIds_removeProduct t pid ih
  | setQ t pid q _ ih => exact nodupIds_updateQuantity t pid q ih

/-- Witness for C1 at a concrete reachable state: two adds followed by a
quantity update. -/
theorem cart_reachable_invariants_witness :
    (cartIds demoCartState).Nodup
    ∧ calculateTotal demoCartState = sumPriceQty demoCartState
    ∧ getItemCount demoCartState = sumQty demoCartState :=
  cart_reachable_invariants demoCartState
    (Reachable.setQ _ 1 5
      (Reachable.add _ productGalaxyS23 (Reachable.add _ productIphone Reachable.empty)))

/-- C2: addProduct is a failing no-op unless the product passes validation
(truthy id, non-empty name, positive price); on success it appends a new
entry with quantity 1 or increments the first existing entry with the same
id, so that adding a valid product to the empty cart gives one entry with
quantity 1 and a second add of the same product id gives quantity 2 and
still exactly one entry. -/
theorem addProduct_contract (p : Product) :
    (validateProduct p = false → ∀ items, addProduct items p = (false, items))
    ∧ (validateProduct p = true →
        (∀ items, findItem items p.id = none →
            addProduct items p = (true, items ++ [CartItem.ofProduct p 1]))
        ∧ (∀ items it, findItem items p.id = some it →
            addProduct items p = (true, incQtyFirst p.id items))
        ∧ addProduct [] p = (true, [CartItem.ofProduct p 1])
        ∧ (∀ q : Product, validateProduct q = true → q.id = p.id →
            addProduct [CartItem.ofProduct p 1] q = (true, [CartItem.ofProduct p 2]))) := by
  constructor
  · intro hv items
    simp [addProduct, hv]
  · intro hv
    refine ⟨?_, ?_, ?_, ?_⟩
    · intro items hf
      simp [addProduct, hv, hf]
    · intro items it hf
      simp [addProduct, hv, hf]
    · simp [addProduct, hv, findItem]
    · intro q hq hid
      have hfind : findItem [CartItem.ofProduct p 1] q.id = some (CartItem.ofProduct p 1) := by
        simp [findItem, CartItem.ofProduct, hid]
      simp only [addProduct, hq, if_true, hfind]
      simp [incQtyFirst, CartItem.ofProduct, CartItem.withQty, hid]

/-- Witness for C2: adding the first catalog product to the empty cart,
adding it again, and the rejection of an invalid product. -/
theorem addProduct_contract_witness :
    validateProduct productIphone = true
    ∧ addProduct [] productIphone = (true, [CartItem.ofProduct productIphone 1])
    ∧ addProduct [CartItem.ofProduct productIphone 1] productIphone
        = (true, [CartItem.ofProduct productIphone 2])
    ∧ addProduct [] ⟨0, "no id", "d", 5, "c", "i"⟩ = (false, []) := by
  have h := addProduct_contract productIphone
  have hbad := addProduct_contract ⟨0, "no id", "d", 5, "c", "i"⟩
  have hv : validateProduct productIphone = true := by decide
  exact ⟨hv, (h.2 hv).2.2.1, (h.2 hv).2.2.2 productIphone hv rfl,
    hbad.1 (by decide) []⟩

theorem map_setQty_no_match (pid q : Int) (l : List CartItem)
    (h : ∀ x ∈ l, x.id ≠ pid) :
    (l.map fun it => if it.id = pid then it.withQty q else it) = l := by
  induction l with
  | nil => rfl
  | cons x xs ih =>
    simp only [List.map_cons]
    rw [if_neg (h x (List.mem_cons_self x xs)), ih fun y hy => h y (List.mem_cons_of_mem x hy)]

theorem setQtyFirst_eq_map (pid q : Int) :
    ∀ l : List CartItem, (cartIds l).Nodup →
      setQtyFirst pid q l = l.map fun it => if it.id = pid then it.withQty q else it := by
  intro l
  induction l with
  | nil => intro _; rfl
  | cons x xs ih =>
    intro hnd
    simp only [cartIds, List.map_cons, List.nodup_cons] at hnd
    obtain ⟨hx, hxs⟩ := hnd
    simp only [setQtyFirst, List.map_cons]
    by_cases h : (x.id == pid) = true
    · have hp : x.id = pid := by simpa using h
      rw [if_pos h, if_pos hp]
      have hnone : ∀ y ∈ xs, y.id ≠ pid := by
        intro y hy hyp
        exact hx (by
          rw [← hp] at hyp
          exact List.mem_map.mpr ⟨y, hy, hyp⟩)
      rw [map_setQty_no_match pid q xs hnone]
    · have hp : ¬x.id = pid := by simpa using h
      rw [if_neg h, if_neg hp, ih (by simpa [cartIds] using hxs)]

/-- C3: updateQuantity with quantity at most 0 behaves exactly like
removeProduct (in particular at quantity 0); with a positive quantity it
overwrites the quantity of the matching entry (stated over carts with no
duplicate ids, the invariant of C1); and on an absent product id it is a
failing no-op. -/
theorem updateQuantity_contract (items : List CartItem) (pid : Int) :
    (∀ q : Int, q ≤ 0 → updateQuantity items pid q = removeProduct items pid)
    ∧ updateQuantity items pid 0 = removeProduct items pid
    ∧ (∀ q : Int, 0 < q → findItem items pid = none →
        updateQuantity items pid q = (false, items))
    ∧ (∀ q : Int, 0 < q → (cartIds items).Nodup → findItem items pid ≠ none →
        updateQuantity items pid q
          = (true, items.map fun it => if it.id = pid then it.withQty q else it)) := by
  refine ⟨?_, ?_, ?_, ?_⟩
  · intro q hq
    simp [updateQuantity, hq]
  · simp [updateQuantity]
  · intro q hq hf
    simp [updateQuantity, not_le.mpr hq, hf]
  · intro q hq hnd hf
    cases hfi : findItem items pid with
    | none => exact absurd hfi hf
    | some it =>
      simp only [updateQuantity, if_neg (not_le.mpr hq), hfi]
      rw [setQtyFirst_eq_map pid q items hnd]

/-- Witness for C3 on a one-entry cart: quantity 0 equals removal, a
positive quantity on an absent id fails, and a positive quantity on the
present id overwrites it. -/
theorem updateQuantity_contract_witness :
    updateQuantity [(⟨1, "a", "d", 10, "c", "i", 1⟩ : CartItem)] 1 0
        = removeProduct [(⟨1, "a", "d", 10, "c", "i", 1⟩ : CartItem)] 1
    ∧ updateQuantity [(⟨1, "a", "d", 10, "c", "i", 1⟩ : CartItem)] 2 5
        = (false, [(⟨1, "a", "d", 10, "c", "i", 1⟩ : CartItem)])
    ∧ updateQuantity [(⟨1, "a", "d", 10, "c", "i", 1⟩ : CartItem)] 1 5
        = (true, List.map (fun it => if it.id = 1 then it.withQty 5 else it)
            [(⟨1, "a", "d", 10, "c", "i", 1⟩ : CartItem)]) := by
  have h1 := updateQuantity_contract [(⟨1, "a", "d", 10, "c", "i", 1⟩ : CartItem)] 1
  have h2 := updateQuantity_contract [(⟨1, "a", "d", 10, "c", "i", 1⟩ : CartItem)] 2
  exact ⟨h1.2.1, h2.2.2.1 5 (by decide) (by decide),
    h1.2.2.2 5 (by decide) (by decide) (by decide)⟩

theorem jsonToItem_itemToJson (it : CartItem) :
    jsonToItem (itemToJson it) = some it := rfl

/-- C4: serializing any cart entry list to storage and reading it back
yields the same entry list — same ids, quantities and order. -/
theorem storage_roundtrip (items : List CartItem) :
    jsonToItems (itemsToJson items) = some items := by
  show jsonItemsToList (items.map itemToJson) = some items
  induction items with
  | nil => rfl
  | cons it rest ih =>
    simp only [List.map_cons, jsonItemsToList, jsonToItem_itemToJson, ih]

/-- C5: the constructor-time load never fails fatally — every stored state
produces a defined outcome — and a storage read error or unparseable stored
text yields the empty cart with the error reported to the log collaborator,
while absent data leaves the initial empty cart without an error. -/
theorem constructCart_failopen (s : Stored) :
    (s = Stored.unreadable ∨ s = Stored.malformedText →
        constructCart s = ⟨Json.arr [], true⟩)
    ∧ (s = Stored.absent → constructCart s = ⟨Json.arr [], false⟩)
    ∧ (∀ j, s = Stored.parsedAs j → constructCart s = ⟨j, false⟩) := by
  refine ⟨?_, ?_, ?_⟩
  · rintro (rfl | rfl) <;> rfl
  · rintro rfl
    rfl
  · rintro j rfl
    rfl

/-- Witness for C5 at the malformed-text and absent stored states. -/
theorem constructCart_failopen_witness :
    constructCart Stored.malformedText = ⟨Json.arr [], true⟩
    ∧ constructCart Stored.absent = ⟨Json.arr [], false⟩ :=
  ⟨(constructCart_failopen Stored.malformedText).1 (Or.inr rfl),
   (constructCart_failopen Stored.absent).2.1 rfl⟩

/-! ## Lemmas about trimming -/

theorem dropWhile_length_le (p : Char → Bool) :
    ∀ l : List Char, (l.dropWhile p).length ≤ l.length := by
  intro l
  induction l with
  | nil => simp
  | cons c cs ih =>
    by_cases h : p c = true
    · simp only [List.dropWhile_cons, h, if_true, List.length_cons]
      omega
    · simp [List.dropWhile_cons, h]

theorem dropWhile_idem (p : Char → Bool) :
    ∀ l : List Char, (l.dropWhile p).dropWhile p = l.dropWhile p := by
  intro l
  induction l with
  | nil => rfl
  | cons a l ih =>
    by_cases h : p a = true
    · simp [List.dropWhile_cons, h, ih]
    · simp [List.dropWhile_cons, h]

theorem dropWhile_dropTrailing (p : Char → Bool) (l : List Char)
    (h : l.dropWhile p = l) :
    (dropTrailing p l).dropWhile p = dropTrailing p l := by
  cases l with
  | nil => rfl
  | cons c cs =>
    have hpc : p c = false := by
      by_contra hne
      have hpc : p c = true := by simpa using hne
      rw [List.dropWhile_cons, if_pos hpc] at h
      have hle := dropWhile_length_le p cs
      rw [h] at hle
      simp at hle
    cases hdt : dropTrailing p cs with
    | nil => simp [dropTrailing, hdt, hpc, List.dropWhile_cons]
    | cons d ds => simp [dropTrailing, hdt, hpc, List.dropWhile_cons]

theorem dropTrailing_cons (p : Char → Bool) (c : Char) (cs : List Char) :
    dropTrailing p (c :: cs)
      = match dropTrailing p cs with
        | [] => if p c then [] else [c]
        | d :: ds => c :: d :: ds := rfl

theorem dropTrailing_idem (p : Char → Bool) :
    ∀ l : List Char, dropTrailing p (dropTrailing p l) = dropTrailing p l := by
  intro l
  induction l with
  | nil => rfl
  | cons c cs ih =>
    cases hdt : dropTrailing p cs with
    | nil =>
      by_cases h : p c = true
      · rw [dropTrailing_cons, hdt]
        simp [h, dropTrailing]
      · rw [dropTrailing_cons, hdt]
        simp [h, dropTrailing]
    | cons d ds =>
      have h2 : dropTrailing p (d :: ds) = d :: ds := by
        rw [← hdt, ih]
      have hc : dropTrailing p (c :: cs) = c :: d :: ds := by
        rw [dropTrailing_cons, hdt]
      rw [hc, dropTrailing_cons, h2]

theorem jsTrimList_idem (cs : List Char) :
    jsTrimList (jsTrimList cs) = jsTrimList cs := by
  simp only [jsTrimList]
  rw [dropWhile_dropTrailing jsIsSpace _ (dropWhile_idem jsIsSpace cs)]
  exact dropTrailing_idem jsIsSpace _

theorem jsTrim_idem (s : String) : jsTrim (jsTrim s) = jsTrim s :=
  congrArg String.mk (jsTrimList_idem s.data)

/-- C6 counterexample: on the empty value with the non-required rule
`{minLength: 2}`, the pipeline described by the claim returns the
min-length error of its first failing check, but `validateField` returns
no error (the empty value short-circuits to valid). -/
theorem validateField_order_cex :
    validateField "" minTwoRules ≠ claimFieldPipeline "" minTwoRules
    ∧ validateField "" minTwoRules = none
    ∧ claimFieldPipeline "" minTwoRules = some (msgMinLength 2) := by
  decide

/-- C6 amended: for values whose trimmed form is nonempty, validateField
short-circuits through required-empty, min length, max length, pattern and
custom in exactly that order, returning the first failing check's error; a
value trimming to empty yields the required error when required and is
valid otherwise; the three email examples behave as claimed. -/
theorem validateField_order_amended (value : String) (rules : Rules) :
    validateField value rules
      = (if jsTrim value == "" then (if rules.required then some msgRequired else none)
         else claimFieldPipeline value rules)
    ∧ validateField "not-an-email" emailRequiredRules = some msgEmail
    ∧ validateField "a@b.com" emailRequiredRules = none
    ∧ validateField "" emailRequiredRules = some msgRequired := by
  refine ⟨?_, by decide, by decide, by decide⟩
  by_cases hv : (jsTrim value == "") = true
  · by_cases hr : rules.required = true
    · simp [validateField, claimFieldPipeline, hv, hr]
    · have hr2 : rules.required = false := by simpa using hr
      simp [validateField, claimFieldPipeline, hv, hr2]
  · have hv2 : (jsTrim value == "") = false := by simpa using hv
    simp [validateField, claimFieldPipeline, hv2]

/-- C7 counterexample: the string of 8 characters with a lowercase letter,
an uppercase letter and a digit that the password pattern rejects, because
its character class admits only basic-Latin letters and digits. -/
theorem password_claim_cex :
    claimPasswordOk "Abcdef1!" = true
    ∧ patternTest Pat.password "Abcdef1!" = false := by
  decide

/-- C7 amended: the password pattern accepts exactly the strings of at
least 8 characters drawn from basic-Latin letters and digits that contain
at least one lowercase letter, one uppercase letter and one digit. -/
theorem password_pattern_amended (s : String) :
    patternTest Pat.password s = true ↔
      8 ≤ s.data.length ∧ (∀ c ∈ s.data, latinAlnum c = true)
      ∧ (∃ c ∈ s.data, isAsciiLower c = true)
      ∧ (∃ c ∈ s.data, isAsciiUpper c = true)
      ∧ (∃ c ∈ s.data, isAsciiDigit c = true) := by
  simp [patternTest, passwordTest, List.all_eq_true, List.any_eq_true, and_assoc]

/-- C10: validateField trims the value before every check — it only depends
on the trimmed value — a value trimming to empty is valid under any
non-required rule with all remaining checks skipped, and under a required
rule a whitespace-only value yields the required error. -/
theorem validateField_trim_contract (value : String) (rules : Rules) :
    validateField value rules = validateField (jsTrim value) rules
    ∧ (jsTrim value = "" → rules.required = false → validateField value rules = none)
    ∧ (jsTrim value = "" → rules.required = true →
        validateField value rules = some msgRequired) := by
  refine ⟨?_, ?_, ?_⟩
  · simp only [validateField, jsTrim_idem]
  · intro hv hr
    simp [validateField, hv, hr]
  · intro hv hr
    simp [validateField, hv, hr]

/-- Witness for C10 on a whitespace-only value: valid under the
non-required min-length rule, required error under the email rule. -/
theorem validateField_trim_contract_witness :
    jsTrim "   " = ""
    ∧ validateField "   " minTwoRules = none
    ∧ validateField "   " emailRequiredRules = some msgRequired := by
  have h1 := validateField_trim_contract "   " minTwoRules
  have h2 := validateField_trim_contract "   " emailRequiredRules
  exact ⟨by decide, h1.2.1 (by decide) rfl, h2.2.2 (by decide) rfl⟩

theorem validateFormAux_fst (form : List (String × String)) :
    ∀ (rules : List (String × Rules)) (acc : Bool × List (String × String)),
      (validateFormAux form acc rules).1 = (acc.1 && rules.all (fieldOk form)) := by
  intro rules
  induction rules with
  | nil => intro acc; simp [validateFormAux]
  | cons fr rest ih =>
    intro acc
    obtain ⟨fieldName, r⟩ := fr
    cases hl : formLookup form fieldName with
    | some v =>
      cases he : validateField v r with
      | some e =>
        simp only [validateFormAux, hl, he]
        rw [ih]
        simp [fieldOk, hl, he, List.all_cons]
      | none =>
        simp only [validateFormAux, hl, he]
        rw [ih]
        simp [fieldOk, hl, he, List.all_cons]
    | none =>
      simp only [validateFormAux, hl]
      rw [ih]
      simp [fieldOk, hl, List.all_cons]

/-- C9: when every field declared in the rules is present among the field
values, validateForm reports success exactly when no declared field
produces a validation error. -/
theorem validateForm_contract (form : List (String × String))
    (rules : List (String × Rules))
    (hall : ∀ fr ∈ rules, (formLookup form fr.1).isSome = true) :
    ((validateForm form rules).1 = true ↔
      ∀ fr ∈ rules, ∀ v, formLookup form fr.1 = some v → validateField v fr.2 = none) := by
  rw [validateForm, validateFormAux_fst]
  simp only [Bool.true_and, List.all_eq_true]
  constructor
  · intro h fr hfr v hv
    have hok := h fr hfr
    simp only [fieldOk, hv] at hok
    simpa using hok
  · intro h fr hfr
    have hs := hall fr hfr
    cases hv : formLookup form fr.1 with
    | none =>
      rw [hv] at hs
      simp at hs
    | some v =>
      simp only [fieldOk, hv]
      simpa using h fr hfr v hv

/-- Witness for C9 on a one-field registration form whose email value is
valid. -/
theorem validateForm_contract_witness :
    (∀ fr ∈ [("email", emailRequiredRules)],
        (formLookup [("email", "a@b.com")] fr.1).isSome = true)
    ∧ ((validateForm [("email", "a@b.com")] [("email", emailRequiredRules)]).1 = true ↔
        ∀ fr ∈ [("email", emailRequiredRules)], ∀ v,
          formLookup [("email", "a@b.com")] fr.1 = some v → validateField v fr.2 = none) := by
  have hall : ∀ fr ∈ [("email", emailRequiredRules)],
      (formLookup [("email", "a@b.com")] fr.1).isSome = true := by decide
  exact ⟨hall, validateForm_contract _ _ hall⟩

/-- C8 counterexample: the query consisting of `pro` and a trailing space.
Its trimmed form matches three catalog products, but `searchProducts`
matches the untrimmed lowercased query and returns no product. -/
theorem search_trim_cex :
    searchProducts catalogProducts "pro " ≠ claimSearch catalogProducts "pro "
    ∧ searchProducts catalogProducts "pro " = []
    ∧ claimSearch catalogProducts "pro "
        = [productIphone, productIpad, productAirpods] := by
  decide

/-- C8 amended: search returns a subsequence of the catalog in catalog
order; an empty or whitespace-only query returns the full catalog; and a
query with nonempty trimmed form selects the products whose name or
description case-insensitively contains the query as given (untrimmed). -/
theorem search_amended (products : List Product) (query : String) :
    List.Sublist (searchProducts products query) products
    ∧ (jsTrim query = "" → searchProducts products query = products)
    ∧ (jsTrim query ≠ "" →
        searchProducts products query
          = products.filter fun p =>
              strIncludes (jsLowerStr p.name) (jsLowerStr query)
              || strIncludes (jsLowerStr p.description) (jsLowerStr query)) := by
  refine ⟨?_, ?_, ?_⟩
  · by_cases h : (jsTrim query == "") = true
    · simp [searchProducts, h]
    · have h2 : (jsTrim query == "") = false := by simpa using h
      simp only [searchProducts, h2, Bool.false_eq_true, if_false]
      exact List.filter_sublist _
  · intro h
    simp [searchProducts, h]
  · intro h
    have hb : (jsTrim query == "") = false := by
      simpa using h
    simp [searchProducts, hb]

/-- Witness for C8 on the catalog: a whitespace-only query returns the
catalog, and the query `Pro` filters by untrimmed containment. -/
theorem search_amended_witness :
    searchProducts catalogProducts "   " = catalogProducts
    ∧ searchProducts catalogProducts "Pro"
        = List.filter (fun p =>
            strIncludes (jsLowerStr p.name) (jsLowerStr "Pro")
            || strIncludes (jsLowerStr p.description) (jsLowerStr "Pro")) catalogProducts := by
  have h1 := search_amended catalogProducts "   "
  have h2 := search_amended catalogProducts "Pro"
  exact ⟨h1.2.1 (by decide), h2.2.2 (by decide)⟩
